import Mathlib

/-!
Shallow embedding of the `momo` MTN mobile-money client library
(`src/src/lib.rs`, `src/src/util.rs`, `src/src/common.rs`, with the
`mini/`, `common/` and `mtn/common/` crates being redundant rewrites of
the same logic).

Strings that the Rust code manipulates character-wise (the Msisdn
normalizer) are modelled as `List Char`; after the initial regex
`[^0-9]+ -> ""` strip every remaining character is an ASCII digit, so
Rust's byte indexing coincides with character indexing.  Strings that
are only compared or concatenated (tokens, urls, hosts) are modelled
as Lean `String`.  The blocking HTTP transport is modelled as an
oracle: a list of events, one consumed per `send()`; each event is
either a transport failure or a response carrying a status code and
the parse results of its body.
-/

namespace Momo

/-! ## Msisdn normalizer (`src/src/util.rs`, `src/src/lib.rs` 54-115) -/

/-- Struct `Country` (`src/src/lib.rs` 54-59).  The `prefix` field is called
`pfx` here because `prefix` is reserved in Lean. -/
structure Country where
  code : List Char
  pfx : List Char
  non_prefix_digits : Nat
deriving DecidableEq, Repr

/-- Function `rm_lead_char` (`src/src/util.rs`): remove leading copies of `chr`,
all of them when `multiple` is true, at most one otherwise. -/
def rm_lead_char : List Char → Char → Bool → List Char
  | [], _, _ => []
  | c :: rest, chr, multiple =>
    if c = chr then
      if multiple then rm_lead_char rest chr multiple else rest
    else c :: rest

/-- The digit-stripped, leading-zero-stripped form of the input: the
`rebase` value of `Msisdn::new` after lines 74-76 of `src/src/lib.rs`
(`ONLY_NUMBERS.replace_all(..., "")` then `rm_lead_char(_, '0', true)`). -/
def rebase_of (mobile_number : List Char) : List Char :=
  rm_lead_char (mobile_number.filter Char.isDigit) '0' true

/-- The `for supported_country in supported_countries` loop of
`Msisdn::new` (`src/src/lib.rs` 81-87): first country whose prefix
starts `rebase` and whose total length matches accepts `rebase`. -/
def find_supported (rebase : List Char) : List Country → Option (List Char)
  | [] => none
  | c :: rest =>
    if c.pfx <+: rebase ∧ rebase.length = c.non_prefix_digits + 3 then
      some rebase
    else find_supported rebase rest

/-- The trimming applied on the `rebase.len() > non_prefix_digits`
branch (`src/src/lib.rs` 96-101): strip at most one leading copy of
each prefix character in sequence, then at most one leading zero
(`rm_lead_char(rebase, '0', false)`). -/
def default_trim (default_country : Country) (rebase : List Char) : List Char :=
  rm_lead_char
    (default_country.pfx.foldl (fun r ch => rm_lead_char r ch false) rebase)
    '0' false

/-- The two `bail!` sites of `Msisdn::new`. -/
inductive MsisdnErr where
  | tooFewDigits
  | incorrectDigitCount
deriving DecidableEq, Repr

/-- Function `Msisdn::new` (`src/src/lib.rs` 69-114). -/
def msisdn_new (mobile_number : List Char) (default_country : Country)
    (supported_countries : List Country) : Except MsisdnErr (List Char) :=
  let rebase := rebase_of mobile_number
  match find_supported rebase supported_countries with
  | some r => .ok r
  | none =>
    if rebase.length < default_country.non_prefix_digits then
      .error .tooFewDigits
    else if rebase.length > default_country.non_prefix_digits then
      let rebase := default_trim default_country rebase
      if rebase.length ≠ default_country.non_prefix_digits then
        .error .incorrectDigitCount
      else
        .ok (default_country.pfx ++ rebase)
    else
      .ok (default_country.pfx ++ rebase)

/-- Ghana, as in the test registry (`src/src/lib.rs` 443-447). -/
def ghana : Country := ⟨['G', 'H'], ['2', '3', '3'], 9⟩

/-- Nigeria, as in the test registry (`src/src/lib.rs` 448-452). -/
def nigeria : Country := ⟨['N', 'G'], ['2', '3', '4'], 8⟩

example :
    msisdn_new ['0', '5', '4', '2', '3', '7', '3', '7', '2', '2'] ghana [ghana] =
      .ok ['2', '3', '3', '5', '4', '2', '3', '7', '3', '7', '2', '2'] := rfl

example :
    msisdn_new ['+', '2', '3', '3', '5', '4', '2', '3', '7', '3', '7', '2', '2'] ghana [ghana] =
      .ok ['2', '3', '3', '5', '4', '2', '3', '7', '3', '7', '2', '2'] := rfl

example :
    msisdn_new ['1', '2', '3', '4', '5'] ghana [ghana] = .error .tooFewDigits := rfl

/-! ## PaymentStatus codec (`src/src/lib.rs` 19-52) -/

/-- Enum `PaymentStatus` (`src/src/lib.rs` 21-25). -/
inductive PaymentStatus where
  | Resolved
  | Rejected
  | Pending
deriving DecidableEq, Repr

/-- Encoding side, `impl fmt::Display for PaymentStatus` (`src/src/lib.rs` 42-52). -/
def payment_status_to_string : PaymentStatus → String
  | .Resolved => "SUCCESSFUL"
  | .Rejected => "FAILED"
  | .Pending => "PENDING"

/-- Decoding side, `impl FromStr for PaymentStatus` (`src/src/lib.rs` 27-40); the
`bail!` on an unknown wire string is the `.error ()` case. -/
def payment_status_from_str (status : String) : Except Unit PaymentStatus :=
  if status = "SUCCESSFUL" then .ok .Resolved
  else if status = "FAILED" then .ok .Rejected
  else if status = "PENDING" then .ok .Pending
  else .error ()

/-! ## Constants (`src/src/common.rs`) -/

def FALLBACK_CALLBACK_HOST : String := "www.mocky.io"

def FALLBACK_CALLBACK_URL : String := "https://www.mocky.io/v2/5ec0fa1c2f000079004c86fb"

def PRODUCTION_BASE_URL : String := "https://momodeveloper.mtn.com"

def SANDBOX_BASE_URL : String := "https://sandbox.momodeveloper.mtn.com/"

def PRODUCTION : String := "production"

def SANDBOX : String := "sandbox"

/-- The string literal of the `self.callback_host.ends_with("mocky.io")`
test in `Client::request_to_pay` (`src/src/lib.rs` 307). -/
def MOCKY_IO_SUFFIX : String := "mocky.io"

/-- The string literal of the trailing-slash tests in `Client::new`
(`src/src/lib.rs` 207-210). -/
def SLASH : String := "/"

/-! ## Authenticated client (`src/src/lib.rs` 131-434)

Rust's `str::ends_with` / `str::starts_with` on these ASCII strings
coincide with character-level suffix / prefix tests. -/

def ends_with (s t : String) : Bool := List.isSuffixOf t.data s.data

def starts_with (s t : String) : Bool := List.isPrefixOf t.data s.data

/-- Struct `Config` (`src/src/lib.rs` 131-139); `device_id` feeds only the
`metadata` diagnostic string and is omitted. -/
structure Config where
  username : String
  password : String
  subscription_key : String
  base_url : Option String
  callback_host : Option String
deriving DecidableEq, Repr

/-- The mutable / observable fields of `Client` (`src/src/lib.rs`
141-153); the `http_client` handle and `metadata` diagnostic string
are not modelled. -/
structure ClientState where
  target_environment : String
  username : String
  password : String
  subscription_key : String
  collections_access_token : String
  base_url : String
  callback_host : String
  reauthorize : Bool
deriving DecidableEq, Repr

/-- Parse results of a response body: `auth_token` is the
`access_token` field when the body deserializes as `Authorization`
(`src/src/lib.rs` 155-160), `payment_status` the `status` field when
it deserializes as `Payment` (169-178), `bal` the pair when it
deserializes as `Balance` (123-129); `none` models a serde failure. -/
structure RespBody where
  auth_token : Option String
  payment_status : Option String
  bal : Option (String × String)
deriving DecidableEq, Repr

/-- One transport event per `send()` call: either an `Err` from
`send()` itself or a response with its status code and body. -/
inductive Ev where
  | sendFail
  | resp (status : Nat) (body : RespBody)
deriving DecidableEq, Repr

/-- The HTTP requests a client run can issue, in order of emission.
`pay` records the `X-Callback-Url` header value it was sent with. -/
inductive Req where
  | token
  | pay (cb_url : String)
  | payStatus
  | balance
deriving DecidableEq, Repr

/-- Error taxonomy, one constructor per distinct failure path. -/
inductive Err where
  | send (r : Req)
  | authHttp (status : Nat)
  | authParse
  | opHttp (r : Req) (status : Nat)
  | respParse (r : Req)
  | unknownStatus (s : String)
  | callbackConfig
deriving DecidableEq, Repr

/-- The body of `authorize_collections` (`src/src/lib.rs` 266-291)
once the single `send()` has produced the event `e`: sets
`reauthorize := false` on entry, bails on a non-200 status or an
unparseable body (leaving the token and the flag untouched), and only
on a parsed 200 stores the new token and restores `reauthorize`. -/
def authorize_step (st : ClientState) (e : Ev) : Except Err Unit × ClientState :=
  let st := { st with reauthorize := false }
  match e with
  | .sendFail => (.error (.send .token), st)
  | .resp status body =>
    if status ≠ 200 then
      (.error (.authHttp status), st)
    else
      match body.auth_token with
      | none => (.error .authParse, st)
      | some tok =>
        (.ok (), { st with collections_access_token := tok, reauthorize := true })

/-- Method `Client::authorize_collections` (`src/src/lib.rs` 266-291): one
`POST {base_url}collection/token/` consuming the next oracle event. -/
def authorize_collections (st : ClientState) (ora : List Ev) :
    Except Err Unit × ClientState × List Ev × List Req :=
  match ora with
  | [] => (.error (.send .token), { st with reauthorize := false }, [], [.token])
  | e :: rest =>
    let r := authorize_step st e
    (r.1, r.2, rest, [.token])

/-- Callback-url resolution of `Client::request_to_pay`
(`src/src/lib.rs` 305-319): explicit argument wins; otherwise the
fallback url is substituted when `callback_host.ends_with("mocky.io")`;
otherwise the `bail!` (modelled as `none`). -/
def resolve_callback_url (callback_url : Option String) (callback_host : String) :
    Option String :=
  match callback_url with
  | some url => some url
  | none =>
    if ends_with callback_host MOCKY_IO_SUFFIX then some FALLBACK_CALLBACK_URL
    else none

/-- The send-and-retry loop of `Client::request_to_pay`
(`src/src/lib.rs` 321-360), after the callback url has been resolved.
On a 401 with `reauthorize` set, the code calls
`authorize_collections` (which consumes exactly one oracle event —
inlined here as a match on the tail so that the recursion is
structural; `authorize_step` is the shared body of that call) and then
recursively retries.  The Rust recursion re-enters `request_to_pay`
and so re-resolves the callback url, but with identical arguments and
a `callback_host` that no branch mutates, resolution yields the same
url again, so recursing post-resolution is extensionally the same. -/
def request_to_pay_send (cb_url : String) (st : ClientState) :
    (ora : List Ev) → Except Err Unit × ClientState × List Ev × List Req
  | [] => (.error (.send (.pay cb_url)), st, [], [.pay cb_url])
  | .sendFail :: rest => (.error (.send (.pay cb_url)), st, rest, [.pay cb_url])
  | .resp status _ :: rest =>
    if status = 202 then
      (.ok (), st, rest, [.pay cb_url])
    else if status = 401 ∧ st.reauthorize then
      match rest with
      | [] =>
        (.error (.send .token), { st with reauthorize := false }, [],
          [.pay cb_url, .token])
      | e2 :: rest2 =>
        match authorize_step st e2 with
        | (.error e, st1) => (.error e, st1, rest2, [.pay cb_url, .token])
        | (.ok _, st1) =>
          let r := request_to_pay_send cb_url st1 rest2
          (r.1, r.2.1, r.2.2.1, .pay cb_url :: .token :: r.2.2.2)
    else
      (.error (.opHttp (.pay cb_url) status), st, rest, [.pay cb_url])

/-- Method `Client::request_to_pay` (`src/src/lib.rs` 293-360): resolve the
callback url, `bail!`-ing before anything is sent when resolution
fails, then run the send-and-retry loop. -/
def request_to_pay (callback_url : Option String) (st : ClientState) (ora : List Ev) :
    Except Err Unit × ClientState × List Ev × List Req :=
  match resolve_callback_url callback_url st.callback_host with
  | none => (.error .callbackConfig, st, ora, [])
  | some cb_url => request_to_pay_send cb_url st ora

/-- The 200-branch of `Client::request_to_pay_status`
(`src/src/lib.rs` 382-388): deserialize the body as `Payment`
(propagating a serde failure) and decode its `status` field through
`PaymentStatus::from_str` (propagating the unknown-status failure). -/
def decode_payment_status (body : RespBody) : Except Err PaymentStatus :=
  match body.payment_status with
  | none => .error (.respParse .payStatus)
  | some s =>
    match payment_status_from_str s with
    | .ok ps => .ok ps
    | .error _ => .error (.unknownStatus s)

/-- Method `Client::request_to_pay_status` (`src/src/lib.rs` 362-402); same
401 handling as `request_to_pay`. -/
def request_to_pay_status (st : ClientState) :
    (ora : List Ev) → Except Err PaymentStatus × ClientState × List Ev × List Req
  | [] => (.error (.send .payStatus), st, [], [.payStatus])
  | .sendFail :: rest => (.error (.send .payStatus), st, rest, [.payStatus])
  | .resp status body :: rest =>
    if status = 200 then
      (decode_payment_status body, st, rest, [.payStatus])
    else if status = 401 ∧ st.reauthorize then
      match rest with
      | [] =>
        (.error (.send .token), { st with reauthorize := false }, [], [.payStatus, .token])
      | e2 :: rest2 =>
        match authorize_step st e2 with
        | (.error e, st1) => (.error e, st1, rest2, [.payStatus, .token])
        | (.ok _, st1) =>
          let r := request_to_pay_status st1 rest2
          (r.1, r.2.1, r.2.2.1, .payStatus :: .token :: r.2.2.2)
    else
      (.error (.opHttp .payStatus status), st, rest, [.payStatus])

/-- The 200-branch of `Client::get_balance` (`src/src/lib.rs`
417-420): deserialize the body as `Balance`, propagating a serde
failure. -/
def decode_balance (body : RespBody) : Except Err (String × String) :=
  match body.bal with
  | none => .error (.respParse .balance)
  | some b => .ok b

/-- Method `Client::get_balance` (`src/src/lib.rs` 404-433); same 401
handling as `request_to_pay`. -/
def get_balance (st : ClientState) :
    (ora : List Ev) → Except Err (String × String) × ClientState × List Ev × List Req
  | [] => (.error (.send .balance), st, [], [.balance])
  | .sendFail :: rest => (.error (.send .balance), st, rest, [.balance])
  | .resp status body :: rest =>
    if status = 200 then
      (decode_balance body, st, rest, [.balance])
    else if status = 401 ∧ st.reauthorize then
      match rest with
      | [] =>
        (.error (.send .token), { st with reauthorize := false }, [], [.balance, .token])
      | e2 :: rest2 =>
        match authorize_step st e2 with
        | (.error e, st1) => (.error e, st1, rest2, [.balance, .token])
        | (.ok _, st1) =>
          let r := get_balance st1 rest2
          (r.1, r.2.1, r.2.2.1, .balance :: .token :: r.2.2.2)
    else
      (.error (.opHttp .balance status), st, rest, [.balance])

/-- The `base_url` / `target_environment` resolution of `Client::new`
(`src/src/lib.rs` 203-227). -/
def resolve_base_url : Option String → String × String
  | some url =>
    (if ends_with url SLASH then url else url ++ SLASH,
     if starts_with url PRODUCTION_BASE_URL then PRODUCTION else SANDBOX)
  | none => (SANDBOX_BASE_URL, SANDBOX)

/-- Method `Client::new` (`src/src/lib.rs` 198-264): resolve the fields,
start with an empty token and `reauthorize = true`, run the initial
`authorize_collections`, and surface only a fully authorized client. -/
def client_new (config : Config) (ora : List Ev) :
    Except Err ClientState × List Ev × List Req :=
  let bu := resolve_base_url config.base_url
  let st0 : ClientState :=
    { target_environment := bu.2
      username := config.username
      password := config.password
      subscription_key := config.subscription_key
      collections_access_token := ""
      base_url := bu.1
      callback_host := config.callback_host.getD FALLBACK_CALLBACK_HOST
      reauthorize := true }
  match authorize_collections st0 ora with
  | (.ok _, st1, ora1, reqs) => (.ok st1, ora1, reqs)
  | (.error e, _, ora1, reqs) => (.error e, ora1, reqs)

/-! ## Helper lemmas about the normalizer -/

theorem rm_lead_char_suffix (c : Char) (m : Bool) :
    ∀ s : List Char, rm_lead_char s c m <:+ s := by
  intro s
  induction s with
  | nil => exact List.suffix_refl []
  | cons a rest ih =>
    simp only [rm_lead_char]
    by_cases h : a = c
    · rw [if_pos h]
      cases m with
      | false => simp only [Bool.false_eq_true, if_false]; exact List.suffix_cons a rest
      | true => simp only [if_true]; exact ih.trans (List.suffix_cons a rest)
    · rw [if_neg h]

theorem foldl_rm_lead_char_suffix :
    ∀ (l : List Char) (r : List Char),
      l.foldl (fun r ch => rm_lead_char r ch false) r <:+ r := by
  intro l
  induction l with
  | nil => intro r; exact List.suffix_refl r
  | cons a rest ih =>
    intro r
    simp only [List.foldl_cons]
    exact (ih (rm_lead_char r a false)).trans (rm_lead_char_suffix a false r)

theorem default_trim_suffix (dc : Country) (r : List Char) :
    default_trim dc r <:+ r :=
  (rm_lead_char_suffix '0' false _).trans (foldl_rm_lead_char_suffix dc.pfx r)

theorem rebase_of_digits (raw : List Char) :
    ∀ ch ∈ rebase_of raw, ch.isDigit = true := by
  intro ch hch
  have hmem : ch ∈ raw.filter Char.isDigit :=
    (rm_lead_char_suffix '0' true (raw.filter Char.isDigit)).subset hch
  exact (List.mem_filter.mp hmem).2

theorem find_supported_of_mem {r : List Char} {c : Country} :
    ∀ {alts : List Country}, c ∈ alts → c.pfx <+: r →
      r.length = c.non_prefix_digits + 3 → find_supported r alts = some r := by
  intro alts
  induction alts with
  | nil => intro h; cases h
  | cons a rest ih =>
    intro hmem hpfx hlen
    unfold find_supported
    by_cases ha : a.pfx <+: r ∧ r.length = a.non_prefix_digits + 3
    · rw [if_pos ha]
    · rw [if_neg ha]
      rcases List.mem_cons.mp hmem with heq | hmem'
      · exact absurd ⟨heq ▸ hpfx, heq ▸ hlen⟩ ha
      · exact ih hmem' hpfx hlen

theorem find_supported_none (r : List Char) :
    ∀ alts : List Country,
      (∀ c ∈ alts, ¬(c.pfx <+: r ∧ r.length = c.non_prefix_digits + 3)) →
      find_supported r alts = none := by
  intro alts
  induction alts with
  | nil => intro _; rfl
  | cons a rest ih =>
    intro h
    unfold find_supported
    rw [if_neg (h a (List.mem_cons_self a rest))]
    exact ih fun c hc => h c (List.mem_cons_of_mem a hc)

theorem find_supported_some {r out : List Char} :
    ∀ {alts : List Country}, find_supported r alts = some out →
      out = r ∧ ∃ c ∈ alts, c.pfx <+: r ∧ r.length = c.non_prefix_digits + 3 := by
  intro alts
  induction alts with
  | nil => intro h; cases h
  | cons a rest ih =>
    intro h
    unfold find_supported at h
    by_cases ha : a.pfx <+: r ∧ r.length = a.non_prefix_digits + 3
    · rw [if_pos ha] at h
      injection h with h
      exact ⟨h.symm, a, List.mem_cons_self a rest, ha.1, ha.2⟩
    · rw [if_neg ha] at h
      obtain ⟨ho, c, hc, h1, h2⟩ := ih h
      exact ⟨ho, c, List.mem_cons_of_mem a hc, h1, h2⟩

/-! ## C5 -/

/-- C5: for every raw input whose digit-stripped, leading-zero-stripped
form starts with some alternate country's prefix and has total length
exactly `3 + non_prefix_digit_count` of that country, `Msisdn::new`
accepts via the alternate-country loop and returns those digits
verbatim, regardless of the default country. -/
theorem c5_alternate_accept (raw : List Char) (dc c : Country) (alts : List Country)
    (hmem : c ∈ alts) (hpfx : c.pfx <+: rebase_of raw)
    (hlen : (rebase_of raw).length = 3 + c.non_prefix_digits) :
    msisdn_new raw dc alts = .ok (rebase_of raw) := by
  have hfind := find_supported_of_mem hmem hpfx (by omega)
  simp only [msisdn_new]
  rw [hfind]

/-- Witness for `c5_alternate_accept`: a Nigerian number with Ghana as
the default country. -/
theorem c5_alternate_accept_witness :
    msisdn_new ['+', '2', '3', '4', '1', '2', '3', '4', '5', '6', '7', '8']
        ghana [ghana, nigeria] =
      .ok (rebase_of ['+', '2', '3', '4', '1', '2', '3', '4', '5', '6', '7', '8']) :=
  c5_alternate_accept _ ghana nigeria [ghana, nigeria]
    (by decide) (by decide) (by decide)

/-! ## C6 -/

/-- C6: whenever the digit-stripped form of the raw input has fewer
characters than the default country's `non_prefix_digit_count`,
`Msisdn::new` fails with the too-few-digits error — provided each
alternate country's full length `3 + non_prefix_digit_count` is at
least the default's count (true of the Ghana/Nigeria registry), so no
alternate can accept such a short input.  In particular an input with
no digit characters at all fails the same way (fails closed: an error,
never an empty Msisdn; the model is a total function, mirroring that
the Rust code never panics on such inputs). -/
theorem c6_too_few_digits (raw : List Char) (dc : Country) (alts : List Country)
    (halts : ∀ c ∈ alts, dc.non_prefix_digits ≤ 3 + c.non_prefix_digits) :
    ((raw.filter Char.isDigit).length < dc.non_prefix_digits →
       msisdn_new raw dc alts = .error .tooFewDigits) ∧
    ((∀ ch ∈ raw, ch.isDigit = false) → 0 < dc.non_prefix_digits →
       msisdn_new raw dc alts = .error .tooFewDigits) := by
  have hshort : (rebase_of raw).length ≤ (raw.filter Char.isDigit).length :=
    (rm_lead_char_suffix '0' true (raw.filter Char.isDigit)).length_le
  have main : (rebase_of raw).length < dc.non_prefix_digits →
      msisdn_new raw dc alts = .error .tooFewDigits := by
    intro hreb
    have hfind : find_supported (rebase_of raw) alts = none := by
      apply find_supported_none
      intro c hc hmatch
      obtain ⟨-, h2⟩ := hmatch
      have := halts c hc
      omega
    simp only [msisdn_new]
    rw [hfind, if_pos hreb]
  constructor
  · intro hlen
    exact main (by omega)
  · intro hnd hpos
    have hfil : raw.filter Char.isDigit = [] := by
      rw [List.filter_eq_nil_iff]
      intro a ha
      simp [hnd a ha]
    have hlen : (raw.filter Char.isDigit).length < dc.non_prefix_digits := by
      rw [hfil]; simpa using hpos
    exact main (by omega)

/-- Witness for `c6_too_few_digits`: the spec's `"12345"` scenario and
a digit-free input, with the Ghana/Nigeria registry. -/
theorem c6_too_few_digits_witness :
    msisdn_new ['1', '2', '3', '4', '5'] ghana [ghana, nigeria] =
        .error .tooFewDigits ∧
      msisdn_new ['a', '-', ' '] ghana [ghana, nigeria] = .error .tooFewDigits :=
  ⟨(c6_too_few_digits ['1', '2', '3', '4', '5'] ghana [ghana, nigeria]
      (by decide)).1 (by decide),
   (c6_too_few_digits ['a', '-', ' '] ghana [ghana, nigeria]
      (by decide)).2 (by decide) (by decide)⟩

/-! ## C3 -/

/-- The trimming C3 describes, following the spec's words: strip at
most one leading occurrence of each prefix character in sequence, then
strip ALL remaining leading zeros.  The code (`default_trim`) instead
strips at most ONE remaining leading zero
(`rm_lead_char(rebase, '0', false)`, `src/src/lib.rs` 101). -/
def spec_trim_all_zeros (default_country : Country) (rebase : List Char) : List Char :=
  rm_lead_char
    (default_country.pfx.foldl (fun r ch => rm_lead_char r ch false) rebase)
    '0' true

/-- C3 as stated: on the longer-than-default branch with no alternate
match, the normalizer strips the prefix characters once each, strips
all remaining leading zeros, and succeeds iff exactly
`non_prefix_digit_count` digits remain. -/
def claim_c3_statement : Prop :=
  ∀ (raw : List Char) (dc : Country) (alts : List Country),
    dc.non_prefix_digits < (rebase_of raw).length →
    (∀ c ∈ alts, ¬(c.pfx <+: rebase_of raw ∧
        (rebase_of raw).length = c.non_prefix_digits + 3)) →
    msisdn_new raw dc alts =
      if (spec_trim_all_zeros dc (rebase_of raw)).length = dc.non_prefix_digits
      then .ok (dc.pfx ++ spec_trim_all_zeros dc (rebase_of raw))
      else .error .incorrectDigitCount

/-- The raw input refuting C3 as stated: `"2300123456789"`.  After the
initial strip nothing changes (13 digits, no leading zero); removing
`'2'`,`'3'` exposes `"00123456789"` (the second `'3'` does not match);
the code then strips a single zero, leaving 10 ≠ 9 digits, and fails,
whereas stripping all remaining zeros would leave exactly 9 digits and
succeed. -/
def raw_c3 : List Char :=
  ['2', '3', '0', '0', '1', '2', '3', '4', '5', '6', '7', '8', '9']

/-- Counterexample for C3: on `raw_c3` with default country Ghana the
code fails with the incorrect-digit-count error although the claim's
strip-all-remaining-zeros reading predicts success with
`"233123456789"`. -/
theorem c3_default_trim_cex :
    msisdn_new raw_c3 ghana [] = .error .incorrectDigitCount ∧
    spec_trim_all_zeros ghana (rebase_of raw_c3) =
      ['1', '2', '3', '4', '5', '6', '7', '8', '9'] ∧
    ¬ claim_c3_statement := by
  refine ⟨rfl, rfl, fun h => ?_⟩
  have hc := h raw_c3 ghana [] (by decide) (by simp)
  rw [if_pos (by decide)] at hc
  have hv : msisdn_new raw_c3 ghana [] = .error .incorrectDigitCount := rfl
  rw [hv] at hc
  exact Except.noConfusion hc

/-- C3 amended: identical to the claim except that after the
single-pass prefix strip the code removes at most ONE remaining
leading zero (`rm_lead_char(_, '0', false)`), not all of them; with
that trimming (`default_trim`), on the longer-than-default branch with
no alternate match the normalizer succeeds with
`prefix ++ trimmed` iff exactly `non_prefix_digit_count` digits
remain, and otherwise fails with the incorrect-digit-count error. -/
theorem c3_default_trim (raw : List Char) (dc : Country) (alts : List Country)
    (hlen : dc.non_prefix_digits < (rebase_of raw).length)
    (hno : ∀ c ∈ alts, ¬(c.pfx <+: rebase_of raw ∧
        (rebase_of raw).length = c.non_prefix_digits + 3)) :
    msisdn_new raw dc alts =
      if (default_trim dc (rebase_of raw)).length = dc.non_prefix_digits
      then .ok (dc.pfx ++ default_trim dc (rebase_of raw))
      else .error .incorrectDigitCount := by
  have hfind := find_supported_none (rebase_of raw) alts hno
  simp only [msisdn_new]
  rw [hfind, if_neg (by omega), if_pos hlen]
  by_cases hd : (default_trim dc (rebase_of raw)).length = dc.non_prefix_digits
  · rw [if_neg (by simpa using hd), if_pos hd]
  · rw [if_pos hd, if_neg hd]

/-- Witness for `c3_default_trim`: `"+233542373722"` with default
Ghana takes the longer-than-default branch and succeeds. -/
theorem c3_default_trim_witness :
    msisdn_new ['+', '2', '3', '3', '5', '4', '2', '3', '7', '3', '7', '2', '2']
        ghana [] =
      if (default_trim ghana
            (rebase_of ['+', '2', '3', '3', '5', '4', '2', '3', '7', '3', '7', '2', '2'])).length =
          ghana.non_prefix_digits
      then .ok (ghana.pfx ++ default_trim ghana
            (rebase_of ['+', '2', '3', '3', '5', '4', '2', '3', '7', '3', '7', '2', '2']))
      else .error .incorrectDigitCount :=
  c3_default_trim _ ghana [] (by decide) (by simp)

/-! ## C4 -/

/-- C4 as stated: for EVERY raw input, default country and alternate
list, a returned Msisdn is all ASCII digits, begins with a known
(supplied) country prefix with matching total length
`3 + non_prefix_digit_count`, and equals `prefix ++ non_prefix_digits`
for exactly one supplied country. -/
def claim_c4_statement : Prop :=
  ∀ (raw : List Char) (dc : Country) (alts : List Country) (m : List Char),
    msisdn_new raw dc alts = .ok m →
    (∀ ch ∈ m, ch.isDigit = true) ∧
    (∃ c ∈ dc :: alts, c.pfx <+: m ∧ m.length = 3 + c.non_prefix_digits) ∧
    (∃! c, c ∈ dc :: alts ∧
      ∃ d, m = c.pfx ++ d ∧ d.length = c.non_prefix_digits)

/-- A country whose prefix is neither three characters long nor made
of digits: the normalizer itself never inspects either property. -/
def ab_country : Country := ⟨['A'], ['a', 'b'], 2⟩

/-- A country distinct from `ghana` (different `code`) sharing ghana's
prefix and digit count. -/
def ghana_twin : Country := ⟨['G', '2'], ['2', '3', '3'], 9⟩

/-- Counterexample for C4 as stated: with the arbitrary country
`ab_country` the returned value `"ab12"` is neither all digits nor of
length `3 + 2`; and with two distinct supplied countries sharing
prefix and digit count the matching country is not unique. -/
theorem c4_msisdn_shape_cex :
    msisdn_new ['1', '2'] ab_country [] = .ok ['a', 'b', '1', '2'] ∧
    msisdn_new ['2', '3', '3', '1', '2', '3', '4', '5', '6', '7', '8', '9']
        ghana [ghana_twin] =
      .ok ['2', '3', '3', '1', '2', '3', '4', '5', '6', '7', '8', '9'] ∧
    ¬ claim_c4_statement := by
  refine ⟨rfl, rfl, fun h => ?_⟩
  obtain ⟨hdig, -, -⟩ := h ['1', '2'] ab_country [] ['a', 'b', '1', '2'] rfl
  have := hdig 'a' (by simp)
  exact absurd this (by decide)

/-- C4 amended: the invariant holds provided every supplied country
(default and alternates) has an all-digit prefix of length exactly 3
and no two distinct supplied countries share both prefix and
`non_prefix_digit_count` — true of the real registry; the code itself
never checks these, so arbitrary `Country` values break the claim. -/
theorem c4_msisdn_shape (raw : List Char) (dc : Country) (alts : List Country)
    (h3 : ∀ c ∈ dc :: alts, c.pfx.length = 3)
    (hdig : ∀ c ∈ dc :: alts, ∀ ch ∈ c.pfx, ch.isDigit = true)
    (huniq : ∀ a ∈ dc :: alts, ∀ b ∈ dc :: alts,
      a.pfx = b.pfx → a.non_prefix_digits = b.non_prefix_digits → a = b)
    (m : List Char) (hm : msisdn_new raw dc alts = .ok m) :
    (∀ ch ∈ m, ch.isDigit = true) ∧
    (∃ c ∈ dc :: alts, c.pfx <+: m ∧ m.length = 3 + c.non_prefix_digits) ∧
    (∃! c, c ∈ dc :: alts ∧
      ∃ d, m = c.pfx ++ d ∧ d.length = c.non_prefix_digits) := by
  have uniq_of : ∀ c ∈ dc :: alts, ∀ d : List Char,
      m = c.pfx ++ d → d.length = c.non_prefix_digits →
      ∀ y, (y ∈ dc :: alts ∧
          ∃ d', m = y.pfx ++ d' ∧ d'.length = y.non_prefix_digits) → y = c := by
    intro c hc d hmd hdl y ⟨hy, d', hmd', hdl'⟩
    have hlc : c.pfx.length = 3 := h3 c hc
    have hly : y.pfx.length = 3 := h3 y hy
    have happ : y.pfx ++ d' = c.pfx ++ d := hmd' ▸ hmd
    obtain ⟨hpe, hde⟩ := List.append_inj happ (by omega)
    have hlen_eq : d'.length = d.length := by rw [hde]
    exact huniq y hy c hc hpe (by omega)
  -- dissect msisdn_new
  simp only [msisdn_new] at hm
  cases hfind : find_supported (rebase_of raw) alts with
  | some r =>
    rw [hfind] at hm
    injection hm with hm
    obtain ⟨hout, c, hc, hpfx, hlen⟩ := find_supported_some hfind
    subst hout
    subst hm
    have hcmem : c ∈ dc :: alts := List.mem_cons_of_mem dc hc
    obtain ⟨d, hd⟩ := id hpfx
    have hdl : d.length = c.non_prefix_digits := by
      have := congrArg List.length hd
      simp at this
      have h3c := h3 c hcmem
      omega
    refine ⟨rebase_of_digits raw, ⟨c, hcmem, hpfx, by omega⟩,
      c, ⟨hcmem, d, hd.symm, hdl⟩, uniq_of c hcmem d hd.symm hdl⟩
  | none =>
    rw [hfind] at hm
    by_cases hlt : (rebase_of raw).length < dc.non_prefix_digits
    · rw [if_pos hlt] at hm
      exact Except.noConfusion hm
    · rw [if_neg hlt] at hm
      have hdc : dc ∈ dc :: alts := List.mem_cons_self dc alts
      have h3dc := h3 dc hdc
      by_cases hgt : (rebase_of raw).length > dc.non_prefix_digits
      · rw [if_pos hgt] at hm
        by_cases htrim :
            (default_trim dc (rebase_of raw)).length = dc.non_prefix_digits
        · rw [if_neg (by simpa using htrim)] at hm
          injection hm with hm
          have hdigs : ∀ ch ∈ dc.pfx ++ default_trim dc (rebase_of raw),
              ch.isDigit = true := by
            intro ch hch
            rcases List.mem_append.mp hch with h | h
            · exact hdig dc hdc ch h
            · exact rebase_of_digits raw ch
                ((default_trim_suffix dc (rebase_of raw)).subset h)
          subst hm
          refine ⟨hdigs, ⟨dc, hdc, ⟨_, rfl⟩, by simp; omega⟩,
            dc, ⟨hdc, _, rfl, htrim⟩, uniq_of dc hdc _ rfl htrim⟩
        · rw [if_pos htrim] at hm
          exact Except.noConfusion hm
      · -- exact-length branch
        rw [if_neg hgt] at hm
        injection hm with hm
        have hexact : (rebase_of raw).length = dc.non_prefix_digits := by omega
        have hdigs : ∀ ch ∈ dc.pfx ++ rebase_of raw, ch.isDigit = true := by
          intro ch hch
          rcases List.mem_append.mp hch with h | h
          · exact hdig dc hdc ch h
          · exact rebase_of_digits raw ch h
        subst hm
        refine ⟨hdigs, ⟨dc, hdc, ⟨_, rfl⟩, by simp; omega⟩,
          dc, ⟨hdc, _, rfl, hexact⟩, uniq_of dc hdc _ rfl hexact⟩

/-- Witness for `c4_msisdn_shape`: the Nigerian acceptance case under
the real Ghana/Nigeria registry. -/
theorem c4_msisdn_shape_witness :
    (∀ ch ∈ ['2', '3', '4', '1', '2', '3', '4', '5', '6', '7', '8'],
       ch.isDigit = true) ∧
    (∃ c ∈ ghana :: [nigeria],
       c.pfx <+: ['2', '3', '4', '1', '2', '3', '4', '5', '6', '7', '8'] ∧
       (['2', '3', '4', '1', '2', '3', '4', '5', '6', '7', '8'] : List Char).length =
         3 + c.non_prefix_digits) ∧
    (∃! c, c ∈ ghana :: [nigeria] ∧
      ∃ d, ['2', '3', '4', '1', '2', '3', '4', '5', '6', '7', '8'] = c.pfx ++ d ∧
        d.length = c.non_prefix_digits) :=
  c4_msisdn_shape ['2', '3', '4', '1', '2', '3', '4', '5', '6', '7', '8']
    ghana [nigeria] (by decide) (by decide) (by decide) _ rfl

/-! ## C7 -/

/-- A wire string outside the closed `PaymentStatus` enumeration, used
to exercise the decode-failure case. -/
def unknown_wire : String := "UNKNOWN"

/-- C7: `PaymentStatus` round-trips through its wire codec — decoding
the encoding of each member yields the member back — and decoding any
string other than the three wire strings fails. -/
theorem c7_payment_status_roundtrip :
    (∀ s : PaymentStatus,
       payment_status_from_str (payment_status_to_string s) = .ok s) ∧
    (∀ w : String, w ≠ "SUCCESSFUL" → w ≠ "FAILED" → w ≠ "PENDING" →
       payment_status_from_str w = .error ()) := by
  constructor
  · intro s; cases s <;> rfl
  · intro w h1 h2 h3
    unfold payment_status_from_str
    rw [if_neg h1, if_neg h2, if_neg h3]

/-- Witness for `c7_payment_status_roundtrip`: the `Pending` member and
the unknown wire string from the repository's own unit test. -/
theorem c7_payment_status_roundtrip_witness :
    payment_status_from_str (payment_status_to_string .Pending) = .ok .Pending ∧
      payment_status_from_str unknown_wire = .error () :=
  ⟨c7_payment_status_roundtrip.1 .Pending,
   c7_payment_status_roundtrip.2 unknown_wire (by decide) (by decide) (by decide)⟩

/-! ## Concrete client fixtures for witnesses and counterexamples -/

/-- A freshly constructed sandbox client with the fallback callback
host, as `Client::new` builds it with a default configuration. -/
def st_sandbox : ClientState :=
  { target_environment := SANDBOX
    username := ""
    password := ""
    subscription_key := ""
    collections_access_token := ""
    base_url := SANDBOX_BASE_URL
    callback_host := FALLBACK_CALLBACK_HOST
    reauthorize := true }

def host_api_mocky : String := "api.mocky.io"

/-- A client configured with a custom host that is not the fallback
host but still ends in `"mocky.io"`. -/
def st_api_mocky : ClientState := { st_sandbox with callback_host := host_api_mocky }

def host_example : String := "example.com"

/-- A client configured with a fully custom callback host. -/
def st_custom_host : ClientState := { st_sandbox with callback_host := host_example }

/-- A response body none of whose parses succeed. -/
def body0 : RespBody := ⟨none, none, none⟩

def tok1 : String := "token-one"

def tok2 : String := "token-two"

/-- A token-endpoint body carrying access token `tok1`. -/
def body_tok1 : RespBody := ⟨some tok1, none, none⟩

/-- A token-endpoint body carrying access token `tok2`. -/
def body_tok2 : RespBody := ⟨some tok2, none, none⟩

/-! ## C8 -/

def double_slash : String := "//"

/-- C8 as stated: the resolved base url of a configured client ends in
EXACTLY one slash (and is classified production exactly on a
production-prefixed url, sandbox otherwise, with the sandbox default
when unset). -/
def claim_c8_statement : Prop :=
  resolve_base_url none = (SANDBOX_BASE_URL, SANDBOX) ∧
  ∀ url : String,
    (ends_with (resolve_base_url (some url)).1 SLASH = true ∧
     ends_with (resolve_base_url (some url)).1 double_slash = false) ∧
    ((resolve_base_url (some url)).2 = PRODUCTION ↔
      starts_with url PRODUCTION_BASE_URL = true)

/-- A configured base url already carrying two trailing slashes. -/
def url_double_slash : String := "https://momodeveloper.mtn.com//"

theorem ends_with_append_slash (url : String) :
    ends_with (url ++ SLASH) SLASH = true := by
  unfold ends_with
  simp only [List.isSuffixOf_iff_suffix, String.data_append]
  exact ⟨url.data, rfl⟩

/-- Counterexample for C8: a configured url ending in `"//"` is kept
verbatim, so the resolved base url does not end in exactly one
slash. -/
theorem c8_base_url_cex :
    resolve_base_url (some url_double_slash) = (url_double_slash, PRODUCTION) ∧
    ends_with url_double_slash double_slash = true ∧
    ¬ claim_c8_statement := by
  refine ⟨by decide, by decide, fun h => ?_⟩
  have hd := (h.2 url_double_slash).1.2
  rw [show (resolve_base_url (some url_double_slash)).1 = url_double_slash
      from by decide] at hd
  exact absurd hd (by decide)

/-- C8 amended: `Client::new` defaults to the sandbox endpoint when
`base_url` is unset; a configured url is given AT LEAST one trailing
slash — one is appended exactly when missing, and an already present
trailing slash (even a repeated one) is preserved verbatim; the
environment is "production" exactly when the configured url starts
with the production endpoint literal and "sandbox" otherwise. -/
theorem c8_base_url :
    resolve_base_url none = (SANDBOX_BASE_URL, SANDBOX) ∧
    ∀ url : String,
      ends_with (resolve_base_url (some url)).1 SLASH = true ∧
      (ends_with url SLASH = true → (resolve_base_url (some url)).1 = url) ∧
      (ends_with url SLASH = false →
        (resolve_base_url (some url)).1 = url ++ SLASH) ∧
      ((resolve_base_url (some url)).2 = PRODUCTION ↔
        starts_with url PRODUCTION_BASE_URL = true) ∧
      ((resolve_base_url (some url)).2 = SANDBOX ↔
        starts_with url PRODUCTION_BASE_URL = false) := by
  refine ⟨rfl, fun url => ⟨?_, ?_, ?_, ?_, ?_⟩⟩
  · cases h : ends_with url SLASH with
    | true => simp [resolve_base_url, h]
    | false => simp [resolve_base_url, h, ends_with_append_slash]
  · intro h; simp [resolve_base_url, h]
  · intro h; simp [resolve_base_url, h]
  · cases h : starts_with url PRODUCTION_BASE_URL with
    | true => simp [resolve_base_url, h]
    | false =>
      simp [resolve_base_url, h]
      decide
  · cases h : starts_with url PRODUCTION_BASE_URL with
    | true =>
      simp [resolve_base_url, h]
      decide
    | false => simp [resolve_base_url, h]

/-- Witness for `c8_base_url`: the production literal itself, which
lacks a trailing slash. -/
theorem c8_base_url_witness :
    ends_with PRODUCTION_BASE_URL SLASH = false ∧
    (resolve_base_url (some PRODUCTION_BASE_URL)).1 =
      PRODUCTION_BASE_URL ++ SLASH ∧
    ((resolve_base_url (some PRODUCTION_BASE_URL)).2 = PRODUCTION ↔
      starts_with PRODUCTION_BASE_URL PRODUCTION_BASE_URL = true) :=
  ⟨by decide, (c8_base_url.2 PRODUCTION_BASE_URL).2.2.1 (by decide),
   (c8_base_url.2 PRODUCTION_BASE_URL).2.2.2.1⟩

/-! ## C9 -/

/-- C9 as stated: the explicit callback argument wins; without one the
fallback callback url is substituted ONLY when `callback_host` IS the
known sandbox placeholder host (`FALLBACK_CALLBACK_HOST`); any other
host makes the call fail with the configuration error before any
request is sent. -/
def claim_c9_statement : Prop :=
  (∀ u host : String, resolve_callback_url (some u) host = some u) ∧
  (∀ host : String, host = FALLBACK_CALLBACK_HOST →
     resolve_callback_url none host = some FALLBACK_CALLBACK_URL) ∧
  (∀ (st : ClientState) (ora : List Ev),
     st.callback_host ≠ FALLBACK_CALLBACK_HOST →
     request_to_pay none st ora = (.error .callbackConfig, st, ora, []))

/-- Counterexample for C9: the host `"api.mocky.io"` is not the
placeholder host, yet the fallback callback url is substituted and the
request succeeds. -/
theorem c9_callback_cex :
    request_to_pay none st_api_mocky [.resp 202 body0] =
      (.ok (), st_api_mocky, [], [.pay FALLBACK_CALLBACK_URL]) ∧
    host_api_mocky ≠ FALLBACK_CALLBACK_HOST ∧
    ¬ claim_c9_statement := by
  refine ⟨rfl, by decide, fun h => ?_⟩
  have hc := h.2.2 st_api_mocky [.resp 202 body0] (by decide)
  rw [show request_to_pay none st_api_mocky [.resp 202 body0] =
      (.ok (), st_api_mocky, [], [.pay FALLBACK_CALLBACK_URL]) from rfl] at hc
  exact Except.noConfusion (congrArg Prod.fst hc)

/-- C9 amended: the explicit callback argument wins; without one the
fallback callback url is substituted whenever `callback_host` ENDS
WITH `"mocky.io"` (which includes the placeholder host); for any other
host the call fails with the configuration error, touching neither the
state, the transport, nor the request log; and whenever resolution
yields a url, the first request sent is the pay request carrying it. -/
theorem c9_callback :
    (∀ u host : String, resolve_callback_url (some u) host = some u) ∧
    (∀ host : String, ends_with host MOCKY_IO_SUFFIX = true →
       resolve_callback_url none host = some FALLBACK_CALLBACK_URL) ∧
    (∀ (st : ClientState) (ora : List Ev),
       ends_with st.callback_host MOCKY_IO_SUFFIX = false →
       request_to_pay none st ora = (.error .callbackConfig, st, ora, [])) ∧
    (∀ (cb : Option String) (st : ClientState) (ora : List Ev) (u : String),
       resolve_callback_url cb st.callback_host = some u →
       ∃ t, (request_to_pay cb st ora).2.2.2 = .pay u :: t) := by
  refine ⟨fun u host => rfl, fun host h => by simp [resolve_callback_url, h],
    fun st ora h => by simp [request_to_pay, resolve_callback_url, h],
    fun cb st ora u hres => ?_⟩
  have hwrap : request_to_pay cb st ora = request_to_pay_send u st ora := by
    simp [request_to_pay, hres]
  rw [hwrap]
  cases ora with
  | nil => exact ⟨[], by rw [request_to_pay_send.eq_def]⟩
  | cons e rest =>
    cases e with
    | sendFail => exact ⟨[], by rw [request_to_pay_send.eq_def]⟩
    | resp status body =>
      by_cases h202 : status = 202
      · subst h202
        exact ⟨[], by rw [request_to_pay_send.eq_def]; rfl⟩
      · by_cases h401 : status = 401 ∧ st.reauthorize = true
        · obtain ⟨h4, hfl⟩ := h401
          subst h4
          cases rest with
          | nil =>
            exact ⟨[.token], by rw [request_to_pay_send.eq_def]; simp [hfl]⟩
          | cons e2 rest2 =>
            rcases hstep : authorize_step st e2 with ⟨r1, st1⟩
            cases r1 with
            | error er =>
              exact ⟨[.token],
                by rw [request_to_pay_send.eq_def]; simp [hfl, hstep]⟩
            | ok uu =>
              refine ⟨.token :: (request_to_pay_send u st1 rest2).2.2.2, ?_⟩
              rw [request_to_pay_send.eq_def]
              simp [hfl, hstep]
        · exact ⟨[],
            by rw [request_to_pay_send.eq_def]; simp [h202, h401]⟩

/-- Witness for `c9_callback`: the placeholder host receives the
fallback url; the custom host `"example.com"` fails before sending. -/
theorem c9_callback_witness :
    resolve_callback_url none FALLBACK_CALLBACK_HOST =
        some FALLBACK_CALLBACK_URL ∧
      request_to_pay none st_custom_host [] =
        (.error .callbackConfig, st_custom_host, [], []) :=
  ⟨c9_callback.2.1 FALLBACK_CALLBACK_HOST (by decide),
   c9_callback.2.2.1 st_custom_host [] (by decide)⟩

/-! ## C10 -/

/-- C10: whenever `authorize_collections` returns an error — transport
failure, non-200 token status, or unparseable 200 body — the stored
`collections_access_token` is exactly what it was before the call; the
token changes only when the call returns `Ok` after parsing a 200
response whose `access_token` is the newly stored value. -/
theorem c10_token_unchanged :
    ∀ (st : ClientState) (ora : List Ev),
      ((∃ e, (authorize_collections st ora).1 = .error e) →
        (authorize_collections st ora).2.1.collections_access_token =
          st.collections_access_token) ∧
      ((authorize_collections st ora).2.1.collections_access_token ≠
          st.collections_access_token →
        (authorize_collections st ora).1 = .ok () ∧
        ∃ (body : RespBody) (rest : List Ev),
          ora = .resp 200 body :: rest ∧
          body.auth_token =
            some (authorize_collections st ora).2.1.collections_access_token) := by
  intro st ora
  cases ora with
  | nil =>
    exact ⟨fun _ => rfl, fun hne => absurd rfl hne⟩
  | cons e rest =>
    cases e with
    | sendFail =>
      exact ⟨fun _ => rfl, fun hne => absurd rfl hne⟩
    | resp status body =>
      by_cases h200 : status = 200
      · subst h200
        cases htok : body.auth_token with
        | none =>
          simp only [authorize_collections, authorize_step, htok]
          exact ⟨fun _ => rfl, fun hne => absurd rfl hne⟩
        | some tok =>
          constructor
          · intro he
            obtain ⟨e, he⟩ := he
            simp [authorize_collections, authorize_step, htok] at he
          · intro hne
            refine ⟨?_, ?_⟩
            · simp [authorize_collections, authorize_step, htok]
            · refine ⟨body, rest, ?_, ?_⟩
              · rfl
              · simp [authorize_collections, authorize_step, htok]
      · refine ⟨fun _ => ?_, fun hne => ?_⟩
        · simp [authorize_collections, authorize_step, if_pos h200]
        · exact absurd
            (show (authorize_collections st (.resp status body :: rest)).2.1.collections_access_token =
                st.collections_access_token by
              simp [authorize_collections, authorize_step, if_pos h200]) hne

/-! ## C2 -/

/-- The errors of a failed authorization attempt: transport failure
on the token request, non-200 token status, or unparseable token body
— exactly the outcomes that leave `reauthorize` disabled. -/
def auth_failure_err : Err → Prop
  | .send .token => True
  | .authHttp _ => True
  | .authParse => True
  | _ => False

/-- A result that reports a failed authorization attempt. -/
def is_auth_failure {α : Type} : Except Err α → Prop
  | .error er => auth_failure_err er
  | .ok _ => False

theorem authorize_step_flag_iff (st : ClientState) (e : Ev) :
    (authorize_step st e).2.reauthorize = true ↔
      (authorize_step st e).1 = .ok () := by
  cases e with
  | sendFail => simp [authorize_step]
  | resp status body =>
    by_cases h : status ≠ 200
    · simp [authorize_step, if_pos h]
    · cases htok : body.auth_token with
      | none => simp [authorize_step, if_neg h, htok]
      | some tok => simp [authorize_step, if_neg h, htok]

theorem authorize_step_fail (st : ClientState) (e : Ev) :
    (authorize_step st e).1 = .ok () ∨
      is_auth_failure (authorize_step st e).1 := by
  cases e with
  | sendFail => exact Or.inr trivial
  | resp status body =>
    by_cases h : status ≠ 200
    · right; simp [authorize_step, if_pos h, is_auth_failure, auth_failure_err]
    · cases htok : body.auth_token with
      | none => right; simp [authorize_step, if_neg h, htok, is_auth_failure, auth_failure_err]
      | some tok => left; simp [authorize_step, if_neg h, htok]

theorem authorize_step_callback_host (st : ClientState) (e : Ev) :
    (authorize_step st e).2.callback_host = st.callback_host := by
  cases e with
  | sendFail => rfl
  | resp status body =>
    by_cases h : status ≠ 200
    · simp [authorize_step, if_pos h]
    · cases htok : body.auth_token with
      | none => simp [authorize_step, if_neg h, htok]
      | some tok => simp [authorize_step, if_neg h, htok]

theorem is_auth_failure_decode_payment (body : RespBody) :
    ¬ is_auth_failure (decode_payment_status body) := by
  unfold decode_payment_status
  cases hp : body.payment_status with
  | none => simp [is_auth_failure, auth_failure_err]
  | some w =>
    cases hps : payment_status_from_str w with
    | ok ps => simp [hps, is_auth_failure, auth_failure_err]
    | error e => simp [hps, is_auth_failure, auth_failure_err]

theorem is_auth_failure_decode_balance (body : RespBody) :
    ¬ is_auth_failure (decode_balance body) := by
  unfold decode_balance
  cases hb : body.bal with
  | none => simp [is_auth_failure, auth_failure_err]
  | some b => simp [is_auth_failure, auth_failure_err]

theorem request_to_pay_send_flag (u : String) (st : ClientState) (ora : List Ev) :
    (st.reauthorize = false → (request_to_pay_send u st ora).2.1 = st) ∧
    (st.reauthorize = true →
      ((request_to_pay_send u st ora).2.1.reauthorize = false ↔
        is_auth_failure (request_to_pay_send u st ora).1)) := by
  induction st, ora using request_to_pay_send.induct u with
  | case1 st =>
    have hred : request_to_pay_send u st [] =
        (.error (.send (.pay u)), st, [], [.pay u]) := by
      rw [request_to_pay_send.eq_def]
    rw [hred]
    exact ⟨fun _ => rfl,
      fun h => iff_of_false (by simp [h]) (by simp [is_auth_failure, auth_failure_err])⟩
  | case2 st rest =>
    have hred : request_to_pay_send u st (.sendFail :: rest) =
        (.error (.send (.pay u)), st, rest, [.pay u]) := by
      rw [request_to_pay_send.eq_def]
    rw [hred]
    exact ⟨fun _ => rfl,
      fun h => iff_of_false (by simp [h]) (by simp [is_auth_failure, auth_failure_err])⟩
  | case3 st body rest =>
    have hred : request_to_pay_send u st (.resp 202 body :: rest) =
        (.ok (), st, rest, [.pay u]) := by
      rw [request_to_pay_send.eq_def]
      rfl
    rw [hred]
    exact ⟨fun _ => rfl,
      fun h => iff_of_false (by simp [h]) (by simp [is_auth_failure, auth_failure_err])⟩
  | case4 st status body h2 hguard =>
    have hred : request_to_pay_send u st [.resp status body] =
        (.error (.send .token), { st with reauthorize := false }, [],
          [.pay u, .token]) := by
      rw [request_to_pay_send.eq_def]
      simp [h2, hguard]
    rw [hred]
    refine ⟨fun h => absurd hguard.2 (by simp [h]), fun _ => ?_⟩
    exact iff_of_true rfl trivial
  | case5 st status body h2 hguard e2 rest2 er st1 hstep =>
    have hred : request_to_pay_send u st (.resp status body :: e2 :: rest2) =
        (.error er, st1, rest2, [.pay u, .token]) := by
      rw [request_to_pay_send.eq_def]
      simp [h2, hguard, hstep]
    rw [hred]
    have hflag := authorize_step_flag_iff st e2
    have hfail := authorize_step_fail st e2
    rw [hstep] at hflag hfail
    refine ⟨fun h => absurd hguard.2 (by simp [h]), fun _ => ?_⟩
    constructor
    · intro _
      rcases hfail with hok | hf
      · exact Except.noConfusion hok
      · exact hf
    · intro _
      cases hb : st1.reauthorize with
      | false => rfl
      | true => exact absurd (hflag.mp hb) (by simp)
  | case6 st status body h2 hguard e2 rest2 a st1 hstep ih =>
    have hflag := authorize_step_flag_iff st e2
    rw [hstep] at hflag
    have hst1 : st1.reauthorize = true := hflag.mpr rfl
    have hred : request_to_pay_send u st (.resp status body :: e2 :: rest2) =
        ((request_to_pay_send u st1 rest2).1, (request_to_pay_send u st1 rest2).2.1,
         (request_to_pay_send u st1 rest2).2.2.1,
         .pay u :: .token :: (request_to_pay_send u st1 rest2).2.2.2) := by
      rw [request_to_pay_send.eq_def]
      simp [h2, hguard, hstep]
    rw [hred]
    refine ⟨fun h => absurd hguard.2 (by simp [h]), fun _ => ?_⟩
    exact ih.2 hst1
  | case7 st status body rest h2 hguard =>
    have hred : request_to_pay_send u st (.resp status body :: rest) =
        (.error (.opHttp (.pay u) status), st, rest, [.pay u]) := by
      rw [request_to_pay_send.eq_def]
      simp [h2, hguard]
    rw [hred]
    exact ⟨fun _ => rfl,
      fun h => iff_of_false (by simp [h]) (by simp [is_auth_failure, auth_failure_err])⟩

theorem request_to_pay_status_flag (st : ClientState) (ora : List Ev) :
    (st.reauthorize = false → (request_to_pay_status st ora).2.1 = st) ∧
    (st.reauthorize = true →
      ((request_to_pay_status st ora).2.1.reauthorize = false ↔
        is_auth_failure (request_to_pay_status st ora).1)) := by
  induction st, ora using request_to_pay_status.induct with
  | case1 st =>
    have hred : request_to_pay_status st [] =
        (.error (.send (.payStatus)), st, [], [.payStatus]) := by
      rw [request_to_pay_status.eq_def]
    rw [hred]
    exact ⟨fun _ => rfl,
      fun h => iff_of_false (by simp [h]) (by simp [is_auth_failure, auth_failure_err])⟩
  | case2 st rest =>
    have hred : request_to_pay_status st (.sendFail :: rest) =
        (.error (.send (.payStatus)), st, rest, [.payStatus]) := by
      rw [request_to_pay_status.eq_def]
    rw [hred]
    exact ⟨fun _ => rfl,
      fun h => iff_of_false (by simp [h]) (by simp [is_auth_failure, auth_failure_err])⟩
  | case3 st body rest =>
    have hred : request_to_pay_status st (.resp 200 body :: rest) =
        (decode_payment_status body, st, rest, [.payStatus]) := by
      rw [request_to_pay_status.eq_def]
      rfl
    rw [hred]
    exact ⟨fun _ => rfl,
      fun h => iff_of_false (by simp [h]) (is_auth_failure_decode_payment body)⟩
  | case4 st status body h2 hguard =>
    have hred : request_to_pay_status st [.resp status body] =
        (.error (.send .token), { st with reauthorize := false }, [],
          [.payStatus, .token]) := by
      rw [request_to_pay_status.eq_def]
      simp [h2, hguard]
    rw [hred]
    refine ⟨fun h => absurd hguard.2 (by simp [h]), fun _ => ?_⟩
    exact iff_of_true rfl trivial
  | case5 st status body h2 hguard e2 rest2 er st1 hstep =>
    have hred : request_to_pay_status st (.resp status body :: e2 :: rest2) =
        (.error er, st1, rest2, [.payStatus, .token]) := by
      rw [request_to_pay_status.eq_def]
      simp [h2, hguard, hstep]
    rw [hred]
    have hflag := authorize_step_flag_iff st e2
    have hfail := authorize_step_fail st e2
    rw [hstep] at hflag hfail
    refine ⟨fun h => absurd hguard.2 (by simp [h]), fun _ => ?_⟩
    constructor
    · intro _
      rcases hfail with hok | hf
      · exact Except.noConfusion hok
      · exact hf
    · intro _
      cases hb : st1.reauthorize with
      | false => rfl
      | true => exact absurd (hflag.mp hb) (by simp)
  | case6 st status body h2 hguard e2 rest2 a st1 hstep ih =>
    have hflag := authorize_step_flag_iff st e2
    rw [hstep] at hflag
    have hst1 : st1.reauthorize = true := hflag.mpr rfl
    have hred : request_to_pay_status st (.resp status body :: e2 :: rest2) =
        ((request_to_pay_status st1 rest2).1, (request_to_pay_status st1 rest2).2.1,
         (request_to_pay_status st1 rest2).2.2.1,
         .payStatus :: .token :: (request_to_pay_status st1 rest2).2.2.2) := by
      rw [request_to_pay_status.eq_def]
      simp [h2, hguard, hstep]
    rw [hred]
    refine ⟨fun h => absurd hguard.2 (by simp [h]), fun _ => ?_⟩
    exact ih.2 hst1
  | case7 st status body rest h2 hguard =>
    have hred : request_to_pay_status st (.resp status body :: rest) =
        (.error (.opHttp (.payStatus) status), st, rest, [.payStatus]) := by
      rw [request_to_pay_status.eq_def]
      simp [h2, hguard]
    rw [hred]
    exact ⟨fun _ => rfl,
      fun h => iff_of_false (by simp [h]) (by simp [is_auth_failure, auth_failure_err])⟩

theorem get_balance_flag (st : ClientState) (ora : List Ev) :
    (st.reauthorize = false → (get_balance st ora).2.1 = st) ∧
    (st.reauthorize = true →
      ((get_balance st ora).2.1.reauthorize = false ↔
        is_auth_failure (get_balance st ora).1)) := by
  induction st, ora using get_balance.induct with
  | case1 st =>
    have hred : get_balance st [] =
        (.error (.send (.balance)), st, [], [.balance]) := by
      rw [get_balance.eq_def]
    rw [hred]
    exact ⟨fun _ => rfl,
      fun h => iff_of_false (by simp [h]) (by simp [is_auth_failure, auth_failure_err])⟩
  | case2 st rest =>
    have hred : get_balance st (.sendFail :: rest) =
        (.error (.send (.balance)), st, rest, [.balance]) := by
      rw [get_balance.eq_def]
    rw [hred]
    exact ⟨fun _ => rfl,
      fun h => iff_of_false (by simp [h]) (by simp [is_auth_failure, auth_failure_err])⟩
  | case3 st body rest =>
    have hred : get_balance st (.resp 200 body :: rest) =
        (decode_balance body, st, rest, [.balance]) := by
      rw [get_balance.eq_def]
      rfl
    rw [hred]
    exact ⟨fun _ => rfl,
      fun h => iff_of_false (by simp [h]) (is_auth_failure_decode_balance body)⟩
  | case4 st status body h2 hguard =>
    have hred : get_balance st [.resp status body] =
        (.error (.send .token), { st with reauthorize := false }, [],
          [.balance, .token]) := by
      rw [get_balance.eq_def]
      simp [h2, hguard]
    rw [hred]
    refine ⟨fun h => absurd hguard.2 (by simp [h]), fun _ => ?_⟩
    exact iff_of_true rfl trivial
  | case5 st status body h2 hguard e2 rest2 er st1 hstep =>
    have hred : get_balance st (.resp status body :: e2 :: rest2) =
        (.error er, st1, rest2, [.balance, .token]) := by
      rw [get_balance.eq_def]
      simp [h2, hguard, hstep]
    rw [hred]
    have hflag := authorize_step_flag_iff st e2
    have hfail := authorize_step_fail st e2
    rw [hstep] at hflag hfail
    refine ⟨fun h => absurd hguard.2 (by simp [h]), fun _ => ?_⟩
    constructor
    · intro _
      rcases hfail with hok | hf
      · exact Except.noConfusion hok
      · exact hf
    · intro _
      cases hb : st1.reauthorize with
      | false => rfl
      | true => exact absurd (hflag.mp hb) (by simp)
  | case6 st status body h2 hguard e2 rest2 a st1 hstep ih =>
    have hflag := authorize_step_flag_iff st e2
    rw [hstep] at hflag
    have hst1 : st1.reauthorize = true := hflag.mpr rfl
    have hred : get_balance st (.resp status body :: e2 :: rest2) =
        ((get_balance st1 rest2).1, (get_balance st1 rest2).2.1,
         (get_balance st1 rest2).2.2.1,
         .balance :: .token :: (get_balance st1 rest2).2.2.2) := by
      rw [get_balance.eq_def]
      simp [h2, hguard, hstep]
    rw [hred]
    refine ⟨fun h => absurd hguard.2 (by simp [h]), fun _ => ?_⟩
    exact ih.2 hst1
  | case7 st status body rest h2 hguard =>
    have hred : get_balance st (.resp status body :: rest) =
        (.error (.opHttp (.balance) status), st, rest, [.balance]) := by
      rw [get_balance.eq_def]
      simp [h2, hguard]
    rw [hred]
    exact ⟨fun _ => rfl,
      fun h => iff_of_false (by simp [h]) (by simp [is_auth_failure, auth_failure_err])⟩

/-- C2 as stated: whenever `authorize_collections` returns — with any
result, including an error on a non-200 token response — the
`reauthorize` flag is true. -/
def claim_c2_statement : Prop :=
  ∀ (st : ClientState) (ora : List Ev) (res : Except Err Unit)
    (st' : ClientState) (ora' : List Ev) (reqs : List Req),
    authorize_collections st ora = (res, st', ora', reqs) →
    st'.reauthorize = true

/-- Counterexample for C2: after a 500 from the token endpoint,
control returns to the caller with `reauthorize` still false — the
flag is only restored on success, so the claimed "false only while an
authorization attempt is in flight" is wrong. -/
theorem c2_flag_cex :
    authorize_collections st_sandbox [.resp 500 body0] =
      (.error (.authHttp 500), { st_sandbox with reauthorize := false },
        [], [.token]) ∧
    ({ st_sandbox with reauthorize := false } : ClientState).reauthorize = false ∧
    ¬ claim_c2_statement := by
  refine ⟨rfl, rfl, fun h => ?_⟩
  have hc := h st_sandbox [.resp 500 body0] _ _ _ _ rfl
  exact absurd hc (by decide)

/-- C2 amended: the flag is false while an authorization attempt is in
flight AND after one that failed: `authorize_collections` returns with
`reauthorize = true` exactly when it succeeded; each operation leaves
the state untouched when entered with the flag false (the 401 guard
then fires no re-authorization), and when entered with the flag true
it returns with the flag false exactly when its result is a failed
mid-call authorization (token-request transport failure, non-200 token
status, or unparseable token body). -/
theorem c2_flag_characterization :
    (∀ (st : ClientState) (ora : List Ev),
       (authorize_collections st ora).2.1.reauthorize = true ↔
         (authorize_collections st ora).1 = .ok ()) ∧
    (∀ (cb : Option String) (st : ClientState) (ora : List Ev),
       (st.reauthorize = false → (request_to_pay cb st ora).2.1 = st) ∧
       (st.reauthorize = true →
         ((request_to_pay cb st ora).2.1.reauthorize = false ↔
           is_auth_failure (request_to_pay cb st ora).1))) ∧
    (∀ (st : ClientState) (ora : List Ev),
       (st.reauthorize = false → (request_to_pay_status st ora).2.1 = st) ∧
       (st.reauthorize = true →
         ((request_to_pay_status st ora).2.1.reauthorize = false ↔
           is_auth_failure (request_to_pay_status st ora).1))) ∧
    (∀ (st : ClientState) (ora : List Ev),
       (st.reauthorize = false → (get_balance st ora).2.1 = st) ∧
       (st.reauthorize = true →
         ((get_balance st ora).2.1.reauthorize = false ↔
           is_auth_failure (get_balance st ora).1))) := by
  refine ⟨fun st ora => ?_, fun cb st ora => ?_,
    request_to_pay_status_flag, get_balance_flag⟩
  · cases ora with
    | nil => simp [authorize_collections]
    | cons e rest =>
      simpa [authorize_collections] using authorize_step_flag_iff st e
  · cases hres : resolve_callback_url cb st.callback_host with
    | none =>
      have hr : request_to_pay cb st ora = (.error .callbackConfig, st, ora, []) := by
        simp [request_to_pay, hres]
      rw [hr]
      exact ⟨fun _ => rfl, fun h => by simp [is_auth_failure, auth_failure_err, h]⟩
    | some u =>
      have hr : request_to_pay cb st ora = request_to_pay_send u st ora := by
        simp [request_to_pay, hres]
      rw [hr]
      exact request_to_pay_send_flag u st ora

/-- Witness for `c2_flag_characterization`: a pay call whose mid-call
re-authorization gets a 500. -/
theorem c2_flag_characterization_witness :
    (request_to_pay none st_sandbox
        [.resp 401 body0, .resp 500 body0]).2.1.reauthorize = false ↔
      is_auth_failure (request_to_pay none st_sandbox
        [.resp 401 body0, .resp 500 body0]).1 :=
  (c2_flag_characterization.2.1 none st_sandbox
    [.resp 401 body0, .resp 500 body0]).2 rfl

/-! ## C1 -/

/-- The transport trace refuting C1 as stated: pay answered 401,
token endpoint answered 200 twice, pay answered 401 again, then 202. -/
def ora_c1 : List Ev :=
  [.resp 401 body0, .resp 200 body_tok1, .resp 401 body0,
   .resp 200 body_tok2, .resp 202 body0]

/-- C1 as stated: in the authenticated state, a 401 triggers exactly
one re-authorization and one retried call, and a second consecutive
401 on the retried call is surfaced as a failure with no further
re-authorization or retry — i.e. the request log is exactly
`[pay, token, pay]` and the result is an error. -/
def claim_c1_statement : Prop :=
  ∀ (cb : Option String) (st : ClientState) (u tok : String)
    (b1 b2 b3 : RespBody) (rest : List Ev),
    resolve_callback_url cb st.callback_host = some u →
    st.reauthorize = true →
    b2.auth_token = some tok →
    (∃ e, (request_to_pay cb st
        (.resp 401 b1 :: .resp 200 b2 :: .resp 401 b3 :: rest)).1 = .error e) ∧
    (request_to_pay cb st
        (.resp 401 b1 :: .resp 200 b2 :: .resp 401 b3 :: rest)).2.2.2 =
      [.pay u, .token, .pay u]

/-- Counterexample for C1: with the trace `ora_c1` the client
re-authorizes TWICE and sends the pay request THREE times, ultimately
succeeding — the second consecutive 401 after a successful mid-call
re-authorization is retried again (`authorize_collections` restored
`reauthorize = true`), not surfaced as a failure. -/
theorem c1_retry_cex :
    request_to_pay none st_sandbox ora_c1 =
      (.ok (), { st_sandbox with collections_access_token := tok2 }, [],
       [.pay FALLBACK_CALLBACK_URL, .token, .pay FALLBACK_CALLBACK_URL,
        .token, .pay FALLBACK_CALLBACK_URL]) ∧
    ¬ claim_c1_statement := by
  refine ⟨rfl, fun h => ?_⟩
  obtain ⟨⟨e, he⟩, -⟩ := h none st_sandbox FALLBACK_CALLBACK_URL tok1
    body0 body_tok1 body0 [.resp 200 body_tok2, .resp 202 body0] rfl rfl rfl
  rw [show (request_to_pay none st_sandbox
      (.resp 401 body0 :: .resp 200 body_tok1 :: .resp 401 body0 ::
        [.resp 200 body_tok2, .resp 202 body0])).1 = .ok () from rfl] at he
  exact Except.noConfusion he

/-- C1 amended: on a 401 with `reauthorize` true, each operation
issues exactly one re-authorization call and then exactly one retried
invocation of itself — but the retried invocation runs with
`reauthorize` restored to true (a successful `authorize_collections`
resets it), so a second consecutive 401 triggers a further
re-authorize-and-retry cycle rather than being surfaced; a 401 is
surfaced directly as a failure only when `reauthorize` is false, i.e.
after an earlier FAILED authorization attempt; and when the mid-call
re-authorization itself fails, its error is surfaced with no retry. -/
theorem c1_single_reauth_then_retry :
    (∀ (cb : Option String) (st : ClientState) (u : String) (b1 : RespBody)
       (e2 : Ev) (rest : List Ev),
       resolve_callback_url cb st.callback_host = some u →
       st.reauthorize = true →
       (∀ (er : Err) (st1 : ClientState),
          authorize_step st e2 = (.error er, st1) →
          request_to_pay cb st (.resp 401 b1 :: e2 :: rest) =
            (.error er, st1, rest, [.pay u, .token])) ∧
       (∀ st1 : ClientState, authorize_step st e2 = (.ok (), st1) →
          st1.reauthorize = true ∧
          request_to_pay cb st1 rest = request_to_pay_send u st1 rest ∧
          request_to_pay cb st (.resp 401 b1 :: e2 :: rest) =
            ((request_to_pay_send u st1 rest).1,
             (request_to_pay_send u st1 rest).2.1,
             (request_to_pay_send u st1 rest).2.2.1,
             .pay u :: .token :: (request_to_pay_send u st1 rest).2.2.2))) ∧
    (∀ (cb : Option String) (st : ClientState) (u : String) (b1 : RespBody)
       (rest : List Ev),
       resolve_callback_url cb st.callback_host = some u →
       st.reauthorize = false →
       request_to_pay cb st (.resp 401 b1 :: rest) =
         (.error (.opHttp (.pay u) 401), st, rest, [.pay u])) ∧
    (∀ (st : ClientState) (b1 : RespBody) (e2 : Ev) (rest : List Ev),
       st.reauthorize = true →
       (∀ (er : Err) (st1 : ClientState),
          authorize_step st e2 = (.error er, st1) →
          request_to_pay_status st (.resp 401 b1 :: e2 :: rest) =
            (.error er, st1, rest, [.payStatus, .token])) ∧
       (∀ st1 : ClientState, authorize_step st e2 = (.ok (), st1) →
          st1.reauthorize = true ∧
          request_to_pay_status st (.resp 401 b1 :: e2 :: rest) =
            ((request_to_pay_status st1 rest).1,
             (request_to_pay_status st1 rest).2.1,
             (request_to_pay_status st1 rest).2.2.1,
             .payStatus :: .token :: (request_to_pay_status st1 rest).2.2.2))) ∧
    (∀ (st : ClientState) (b1 : RespBody) (rest : List Ev),
       st.reauthorize = false →
       request_to_pay_status st (.resp 401 b1 :: rest) =
         (.error (.opHttp .payStatus 401), st, rest, [.payStatus])) ∧
    (∀ (st : ClientState) (b1 : RespBody) (e2 : Ev) (rest : List Ev),
       st.reauthorize = true →
       (∀ (er : Err) (st1 : ClientState),
          authorize_step st e2 = (.error er, st1) →
          get_balance st (.resp 401 b1 :: e2 :: rest) =
            (.error er, st1, rest, [.balance, .token])) ∧
       (∀ st1 : ClientState, authorize_step st e2 = (.ok (), st1) →
          st1.reauthorize = true ∧
          get_balance st (.resp 401 b1 :: e2 :: rest) =
            ((get_balance st1 rest).1,
             (get_balance st1 rest).2.1,
             (get_balance st1 rest).2.2.1,
             .balance :: .token :: (get_balance st1 rest).2.2.2))) ∧
    (∀ (st : ClientState) (b1 : RespBody) (rest : List Ev),
       st.reauthorize = false →
       get_balance st (.resp 401 b1 :: rest) =
         (.error (.opHttp .balance 401), st, rest, [.balance])) := by
  refine ⟨fun cb st u b1 e2 rest hres hflag => ⟨fun er st1 hstep => ?_,
      fun st1 hstep => ?_⟩,
    fun cb st u b1 rest hres hflag => ?_,
    fun st b1 e2 rest hflag => ⟨fun er st1 hstep => ?_, fun st1 hstep => ?_⟩,
    fun st b1 rest hflag => ?_,
    fun st b1 e2 rest hflag => ⟨fun er st1 hstep => ?_, fun st1 hstep => ?_⟩,
    fun st b1 rest hflag => ?_⟩
  · have hwrap : request_to_pay cb st (.resp 401 b1 :: e2 :: rest) =
        request_to_pay_send u st (.resp 401 b1 :: e2 :: rest) := by
      simp [request_to_pay, hres]
    rw [hwrap, request_to_pay_send.eq_def]
    simp [hflag, hstep]
  · have hst1 : st1.reauthorize = true := by
      have hiff := authorize_step_flag_iff st e2
      rw [hstep] at hiff
      exact hiff.mpr rfl
    have hcb : st1.callback_host = st.callback_host := by
      have hh := authorize_step_callback_host st e2
      rw [hstep] at hh
      exact hh
    have hres1 : resolve_callback_url cb st1.callback_host = some u := by
      rw [hcb]; exact hres
    have hwrap : request_to_pay cb st (.resp 401 b1 :: e2 :: rest) =
        request_to_pay_send u st (.resp 401 b1 :: e2 :: rest) := by
      simp [request_to_pay, hres]
    refine ⟨hst1, by simp [request_to_pay, hres1], ?_⟩
    rw [hwrap, request_to_pay_send.eq_def]
    simp [hflag, hstep]
  · have hwrap : request_to_pay cb st (.resp 401 b1 :: rest) =
        request_to_pay_send u st (.resp 401 b1 :: rest) := by
      simp [request_to_pay, hres]
    rw [hwrap, request_to_pay_send.eq_def]
    simp [hflag]
  · rw [request_to_pay_status.eq_def]
    simp [hflag, hstep]
  · have hst1 : st1.reauthorize = true := by
      have hiff := authorize_step_flag_iff st e2
      rw [hstep] at hiff
      exact hiff.mpr rfl
    refine ⟨hst1, ?_⟩
    rw [request_to_pay_status.eq_def]
    simp [hflag, hstep]
  · rw [request_to_pay_status.eq_def]
    simp [hflag]
  · rw [get_balance.eq_def]
    simp [hflag, hstep]
  · have hst1 : st1.reauthorize = true := by
      have hiff := authorize_step_flag_iff st e2
      rw [hstep] at hiff
      exact hiff.mpr rfl
    refine ⟨hst1, ?_⟩
    rw [get_balance.eq_def]
    simp [hflag, hstep]
  · rw [get_balance.eq_def]
    simp [hflag]

/-- Witness for `c1_single_reauth_then_retry`: a pay call whose
mid-call re-authorization gets a 500 surfaces that authorization
error after exactly the two requests `[pay, token]`. -/
theorem c1_single_reauth_then_retry_witness :
    request_to_pay none st_sandbox [.resp 401 body0, .resp 500 body0] =
      (.error (.authHttp 500), { st_sandbox with reauthorize := false },
        [], [.pay FALLBACK_CALLBACK_URL, .token]) :=
  (c1_single_reauth_then_retry.1 none st_sandbox FALLBACK_CALLBACK_URL body0
      (.resp 500 body0) [] rfl rfl).1 (.authHttp 500)
    { st_sandbox with reauthorize := false } rfl

/-- Witness for `c10_token_unchanged`: a 500 from the token endpoint
leaves the stored token untouched. -/
theorem c10_token_unchanged_witness :
    (authorize_collections st_sandbox
        [Ev.resp 500 body0]).2.1.collections_access_token =
      st_sandbox.collections_access_token :=
  (c10_token_unchanged st_sandbox [Ev.resp 500 body0]).1 ⟨.authHttp 500, rfl⟩

end Momo
